import Mathlib

/-!
Verification of the H-list flattening serialization core of `wot-rust`
(`src/hlist.rs` and `src/protocol/http.rs`).

The embedding models `serde_json` values as `Json`, an object's contents as
an association list `Fields`, and the derived `Serialize`/`Deserialize`
implementations as explicit functions:

* serialization of a struct produces its list of key/value pairs in field
  declaration order (`serFields`); a `#[serde(flatten)]` field splices its
  own pairs into the enclosing list;
* deserialization through serde's flatten machinery looks fields up by key
  in the enclosing object, ignores unrecognized keys, and fails with a
  structured error (`DeErr`) exactly where the derived code does.
-/

/-- `serde_json::Value`, restricted to the shapes this library produces.
Numbers are integers (all numeric fields in the source are `usize`). -/
inductive Json where
  | null
  | bool (b : Bool)
  | num (n : Int)
  | str (s : String)
  | arr (elems : List Json)
  | obj (fields : List (String × Json))
deriving Repr

/-- The kinds of structured errors serde deserialization produces here. -/
inductive DeErr where
  | missingField (name : String)
  | invalidType
  | unknownVariant (got : String)
deriving DecidableEq, Repr

/-- The contents of a JSON object: key/value pairs in emission order. -/
abbrev Fields := List (String × Json)

/-- Deserialization result. -/
abbrev DeResult (α : Type) := Except DeErr α

/-- First-match key lookup in an object's fields (serde's flatten buffer
binds a recognized field to its first occurrence). -/
def lookupField : Fields → String → Option Json
  | [], _ => none
  | (k, v) :: fs, k' => if k' = k then some v else lookupField fs k'

/-- Parse a JSON string (serde `String`/`Cow<str>` deserialization). -/
def parseString : Json → DeResult String
  | .str s => .ok s
  | _ => .error .invalidType

/-- Parse a `usize` (non-negative integer). -/
def parseUsize : Json → DeResult Nat
  | .num n => if 0 ≤ n then .ok n.toNat else .error .invalidType
  | _ => .error .invalidType

/-- Parse a `bool`. -/
def parseBool : Json → DeResult Bool
  | .bool b => .ok b
  | _ => .error .invalidType

/-- Parse the elements of a JSON array one by one, failing at the first
bad element (serde's sequence deserialization). -/
def mapParse (p : Json → DeResult α) : List Json → DeResult (List α)
  | [] => .ok []
  | x :: xs => do
    let a ← p x
    let as ← mapParse p xs
    pure (a :: as)

/-- Parse a `Vec<T>` given an element parser. -/
def parseArr (p : Json → DeResult α) : Json → DeResult (List α)
  | .arr xs => mapParse p xs
  | _ => .error .invalidType

/-- Deserialize a nested struct value: it must be an object, whose fields
are handed to the struct's deserializer. -/
def parseObjWith (p : Fields → DeResult α) : Json → DeResult α
  | .obj fs => p fs
  | _ => .error .invalidType

/-- `serde_with::OneOrMany<_>` (default `PreferOne` format), deserialization
for string elements: accept a single string or an array of strings. -/
def parseOneOrManyStr : Json → DeResult (List String)
  | .arr xs => mapParse parseString xs
  | v => (parseString v).map (fun s => [s])

/-- `serde_with::OneOrMany<_>` (default `PreferOne` format), serialization:
a one-element vector is emitted as the bare element, any other vector as
an array. -/
def oneOrManySer : List String → Json
  | [x] => .str x
  | xs => .arr (xs.map Json.str)

/-- A required struct field: absent is a `missing field` error. -/
def getReq (o : Option Json) (k : String) (p : Json → DeResult α) : DeResult α :=
  match o with
  | none => .error (.missingField k)
  | some v => p v

/-- An `Option<T>` struct field: absent or `null` is `None`. -/
def getOpt (o : Option Json) (p : Json → DeResult α) : DeResult (Option α) :=
  match o with
  | none => .ok none
  | some .null => .ok none
  | some v => (p v).map some

/-- A struct field with `#[serde(default)]` (or `default = "..."`):
absent yields the default, present values are parsed. -/
def getD (o : Option Json) (p : Json → DeResult α) (d : α) : DeResult α :=
  match o with
  | none => .ok d
  | some v => p v

/-- Serialize an `Option<T>` field without `skip_serializing_none`:
`None` is emitted as an explicit `null`. -/
def optJson (f : α → Json) : Option α → Json
  | none => .null
  | some a => f a

/-- Serialize an `Option<T>` field under `#[skip_serializing_none]`:
`None` contributes no key at all. -/
def optField (k : String) (f : α → Json) : Option α → Fields
  | none => []
  | some a => [(k, f a)]

/-! ## The H-list (`src/hlist.rs`) -/

/-- `hlist::Nil`, the zero-sized terminal marker. -/
inductive Nil where
  | nil
deriving DecidableEq, Repr

/-- `hlist::Cons<T, U>`: a head record and a tail, both flattened. -/
structure Cons (T U : Type) where
  head : T
  tail : U
deriving DecidableEq, Repr

/-- `Cons::new_head(head)`: build a one-element list. -/
def Cons.new_head (head : T) : Cons T Nil :=
  ⟨head, Nil.nil⟩

/-- `Cons::add(self, value)`: prepend a new head, pushing the previous
list into the tail. -/
def Cons.add (l : Cons T U) (value : V) : Cons V (Cons T U) :=
  ⟨value, l⟩

/-- `Cons::split_head(self)`: deconstruct into head and tail. -/
def Cons.split_head (l : Cons T U) : T × U :=
  (l.head, l.tail)

/-- `Serialize for Nil` emits a struct with zero fields, i.e. no keys. -/
def Nil.serFields : Nil → Fields :=
  fun _ => []

/-- `Serialize for Nil` at top level: `serialize_struct("Nil", 0)` is the
empty JSON object. -/
def Nil.toJson : Nil → Json :=
  fun _ => .obj []

/-- `Deserialize for Nil` accepts any object and consumes no fields. -/
def Nil.deserFields : Fields → DeResult Nil :=
  fun _ => .ok Nil.nil

/-! ## The HTTP vocabulary (`src/protocol/http.rs`, outer module) -/

/-- `Method`, serialized in `SCREAMING_SNAKE_CASE`. -/
inductive Method where
  | get
  | put
  | post
  | delete
  | patch
deriving DecidableEq, Repr

def Method.toJson : Method → Json
  | .get => .str "GET"
  | .put => .str "PUT"
  | .post => .str "POST"
  | .delete => .str "DELETE"
  | .patch => .str "PATCH"

def Method.fromJson : Json → DeResult Method
  | .str s =>
    if s = "GET" then .ok .get
    else if s = "PUT" then .ok .put
    else if s = "POST" then .ok .post
    else if s = "DELETE" then .ok .delete
    else if s = "PATCH" then .ok .patch
    else .error (.unknownVariant s)
  | _ => .error .invalidType

/-- `MessageHeader` with its two renamed optional fields. -/
structure MessageHeader where
  field_name : Option String
  field_value : Option String
deriving DecidableEq, Repr

/-- `MessageHeader` serialization: no `skip_serializing_none`, so absent
options are emitted as `null`. -/
def MessageHeader.serFields (h : MessageHeader) : Fields :=
  [("htv:fieldName", optJson Json.str h.field_name),
   ("htv:fieldValue", optJson Json.str h.field_value)]

def MessageHeader.toJson (h : MessageHeader) : Json :=
  .obj h.serFields

def MessageHeader.deserFields (fs : Fields) : DeResult MessageHeader := do
  let fn ← getOpt (lookupField fs "htv:fieldName") parseString
  let fv ← getOpt (lookupField fs "htv:fieldValue") parseString
  pure ⟨fn, fv⟩

/-- `Response`: a required headers list and an optional status code. -/
structure Response where
  headers : List MessageHeader
  status_code_value : Option Nat
deriving DecidableEq, Repr

def Response.serFields (r : Response) : Fields :=
  [("htv:headers", Json.arr (r.headers.map MessageHeader.toJson)),
   ("htv:statusCodeValue", optJson (fun n => Json.num (Int.ofNat n)) r.status_code_value)]

def Response.toJson (r : Response) : Json :=
  .obj r.serFields

def Response.deserFields (fs : Fields) : DeResult Response := do
  let hs ← getReq (lookupField fs "htv:headers") "htv:headers"
    (parseArr (parseObjWith MessageHeader.deserFields))
  let sc ← getOpt (lookupField fs "htv:statusCodeValue") parseUsize
  pure ⟨hs, sc⟩

def Response.fromJson : Json → DeResult Response :=
  parseObjWith Response.deserFields

/-- The outer `Form` of `http.rs`: just an optional `htv:methodName`. -/
structure Form where
  method_name : Option Method
deriving DecidableEq, Repr

def Form.serFields (f : Form) : Fields :=
  [("htv:methodName", optJson Method.toJson f.method_name)]

def Form.deserFields (fs : Fields) : DeResult Form := do
  let m ← getOpt (lookupField fs "htv:methodName") Method.fromJson
  pure ⟨m⟩

/-! ## Builders for the outer `http.rs` module -/

/-- `ResponseBuilder`, `#[derive(Default)]`. -/
structure ResponseBuilder where
  headers : List MessageHeader
  status_code_value : Option Nat
deriving DecidableEq, Repr

/-- `ResponseBuilder::default()`. -/
def ResponseBuilder.mkDefault : ResponseBuilder :=
  ⟨[], none⟩

/-- `ResponseBuilder::headers(self, header)`: push one header. -/
def ResponseBuilder.pushHeader (b : ResponseBuilder) (header : MessageHeader) : ResponseBuilder :=
  { b with headers := b.headers ++ [header] }

/-- `ResponseBuilder::status_code_value(self, value)`. -/
def ResponseBuilder.statusCodeValue (b : ResponseBuilder) (value : Nat) : ResponseBuilder :=
  { b with status_code_value := some value }

/-- `Builder for ResponseBuilder`: `build`. -/
def ResponseBuilder.build (b : ResponseBuilder) : Response :=
  ⟨b.headers, b.status_code_value⟩

/-- `Buildable for Response`: `builder()` is the default builder. -/
def Response.builder : ResponseBuilder :=
  ResponseBuilder.mkDefault

/-- `FormBuilder`, `#[derive(Default)]`. -/
structure FormBuilder where
  method_name : Option Method
deriving DecidableEq, Repr

/-- `FormBuilder::method(self, method_name)`. -/
def FormBuilder.method (b : FormBuilder) (method_name : Method) : FormBuilder :=
  { b with method_name := some method_name }

/-- `Builder for FormBuilder`: `build`. -/
def FormBuilder.build (b : FormBuilder) : Form :=
  ⟨b.method_name⟩

/-- `Buildable for Form`: `builder()` is the default builder. -/
def Form.builder : FormBuilder :=
  ⟨none⟩

/-- `Builder for Nil`: `Nil.build() = Nil`. -/
def Nil.build : Nil → Nil :=
  fun _ => Nil.nil

/-- `Buildable for Nil`: `Nil::builder() = Nil`. -/
def Nil.builder : Nil :=
  Nil.nil

/-! ## The `mini` module (`src/protocol/http.rs`) -/

namespace Mini

/-- `mini::ExpectedResponse<T>`: a content type plus a flattened
extension slot. -/
structure ExpectedResponse (α : Type) where
  content_type : String
  other : α
deriving DecidableEq, Repr

/-- Serialization: `contentType` (camelCase rename) then the flattened
extension, whose field serializer is `σ`. -/
def ExpectedResponse.serFields (σ : α → Fields) (r : ExpectedResponse α) : Fields :=
  ("contentType", Json.str r.content_type) :: σ r.other

def ExpectedResponse.deserFields (δ : Fields → DeResult α) (fs : Fields) :
    DeResult (ExpectedResponse α) := do
  let ct ← getReq (lookupField fs "contentType") "contentType" parseString
  let o ← δ fs
  pure ⟨ct, o⟩

/-- `mini::AdditionalExpectedResponse<T>`: `success` (defaults to `false`),
a content type, and a flattened extension slot. -/
structure AdditionalExpectedResponse (α : Type) where
  success : Bool
  content_type : String
  other : α
deriving DecidableEq, Repr

def AdditionalExpectedResponse.serFields (σ : α → Fields)
    (r : AdditionalExpectedResponse α) : Fields :=
  ("success", Json.bool r.success)
    :: ("contentType", Json.str r.content_type)
    :: σ r.other

def AdditionalExpectedResponse.deserFields (δ : Fields → DeResult α) (fs : Fields) :
    DeResult (AdditionalExpectedResponse α) := do
  let su ← getD (lookupField fs "success") parseBool false
  let ct ← getReq (lookupField fs "contentType") "contentType" parseString
  let o ← δ fs
  pure ⟨su, ct, o⟩

/-- Modelled from the spec: `crate::thing::DefaultedFormOperations`, the type
of `mini::Form`'s `op` field, lives in the `thing` module which is not under
`src/`. Per the spec (§4.4, §6), `op` is a string or an array of strings on
input, and "defaults to the environment's default operation set when absent";
the default operation set is externally supplied, so the default value
contributes no `op` key and is produced exactly when the key is absent. -/
inductive DefaultedFormOperations where
  | default
  | custom (ops : List String)
deriving DecidableEq, Repr

/-- Modelled from the spec: the default contributes no key, a custom
operation set is emitted as an array of strings. -/
def DefaultedFormOperations.toOption : DefaultedFormOperations → Option (List String)
  | .default => none
  | .custom ops => some ops

def DefaultedFormOperations.serFields (op : DefaultedFormOperations) : Fields :=
  optField "op" (fun ops => Json.arr (ops.map Json.str)) op.toOption

/-- Modelled from the spec: accept a single string or an array of strings. -/
def DefaultedFormOperations.parse : Json → DeResult DefaultedFormOperations
  | .str s => .ok (.custom [s])
  | .arr xs => (mapParse parseString xs).map .custom
  | _ => .error .invalidType

/-- `mini::Form<T, E>` with `#[skip_serializing_none]`: `op` (defaulted),
a required `href`, `contentType` defaulting to `"application/json"`,
optional metadata, `OneOrMany` security/scopes, optional expected
responses over the extension `E`, and a flattened extension slot `T`. -/
structure Form (τ ε : Type) where
  op : DefaultedFormOperations
  href : String
  content_type : String
  content_coding : Option String
  subprotocol : Option String
  security : Option (List String)
  scopes : Option (List String)
  response : Option (ExpectedResponse ε)
  additional_response : Option (AdditionalExpectedResponse ε)
  other : τ
deriving DecidableEq, Repr

/-- `Form::<Nil>::default_content_type()`. -/
def Form.default_content_type : String :=
  "application/json"

def Form.serFields (σ : τ → Fields) (σe : ε → Fields) (f : Form τ ε) : Fields :=
  f.op.serFields
    ++ ("href", Json.str f.href)
    :: ("contentType", Json.str f.content_type)
    :: (optField "contentCoding" Json.str f.content_coding
    ++ optField "subprotocol" Json.str f.subprotocol
    ++ optField "security" oneOrManySer f.security
    ++ optField "scopes" oneOrManySer f.scopes
    ++ optField "response" (fun r => Json.obj (ExpectedResponse.serFields σe r)) f.response
    ++ optField "additionalResponse"
        (fun r => Json.obj (AdditionalExpectedResponse.serFields σe r)) f.additional_response
    ++ σ f.other)

def Form.deserFields (δ : Fields → DeResult τ) (δe : Fields → DeResult ε) (fs : Fields) :
    DeResult (Form τ ε) := do
  let op ← getD (lookupField fs "op") DefaultedFormOperations.parse .default
  let href ← getReq (lookupField fs "href") "href" parseString
  let ct ← getD (lookupField fs "contentType") parseString Form.default_content_type
  let cc ← getOpt (lookupField fs "contentCoding") parseString
  let sp ← getOpt (lookupField fs "subprotocol") parseString
  let sec ← getOpt (lookupField fs "security") parseOneOrManyStr
  let sco ← getOpt (lookupField fs "scopes") parseOneOrManyStr
  let resp ← getOpt (lookupField fs "response") (parseObjWith (ExpectedResponse.deserFields δe))
  let ar ← getOpt (lookupField fs "additionalResponse")
    (parseObjWith (AdditionalExpectedResponse.deserFields δe))
  let o ← δ fs
  pure ⟨op, href, ct, cc, sp, sec, sco, resp, ar, o⟩

/-- `mini::InteractionAffordance<T, F, R>` with `#[skip_serializing_none]`:
`@type` (`OneOrMany`), optional title and description, a list of forms,
and a flattened extension slot. -/
structure InteractionAffordance (τ φ ρ : Type) where
  attype : Option (List String)
  title : Option String
  description : Option String
  forms : List (Form φ ρ)
  other : τ
deriving DecidableEq, Repr

def InteractionAffordance.serFields (σ : τ → Fields) (σf : φ → Fields) (σr : ρ → Fields)
    (a : InteractionAffordance τ φ ρ) : Fields :=
  optField "@type" oneOrManySer a.attype
    ++ optField "title" Json.str a.title
    ++ optField "description" Json.str a.description
    ++ ("forms", Json.arr (a.forms.map (fun f => Json.obj (Form.serFields σf σr f))))
    :: σ a.other

def InteractionAffordance.deserFields (δ : Fields → DeResult τ)
    (δf : Fields → DeResult (Form φ ρ)) (fs : Fields) :
    DeResult (InteractionAffordance τ φ ρ) := do
  let aty ← getOpt (lookupField fs "@type") parseOneOrManyStr
  let ti ← getOpt (lookupField fs "title") parseString
  let de ← getOpt (lookupField fs "description") parseString
  let fo ← getReq (lookupField fs "forms") "forms" (parseArr (parseObjWith δf))
  let o ← δ fs
  pure ⟨aty, ti, de, fo, o⟩

/-- `mini::ExpectedResponseBuilder<T>`. -/
structure ExpectedResponseBuilder (β : Type) where
  content_type : String
  other : β
deriving DecidableEq, Repr

/-- `ExpectedResponseBuilder::default()`: the inner builder's default is
supplied explicitly (Rust's `T::default()`). -/
def ExpectedResponseBuilder.mkDefault (d : β) : ExpectedResponseBuilder β :=
  ⟨"", d⟩

/-- `ExpectedResponseBuilder::content_type(self, ty)`. -/
def ExpectedResponseBuilder.contentType (b : ExpectedResponseBuilder β)
    (ty : String) : ExpectedResponseBuilder β :=
  { b with content_type := ty }

/-- `ExpectedResponseBuilder::other(self, f)`: run the transformer on the
stored inner builder. -/
def ExpectedResponseBuilder.otherWith (b : ExpectedResponseBuilder β)
    (f : β → β) : ExpectedResponseBuilder β :=
  { b with other := f b.other }

/-- `Builder for ExpectedResponseBuilder<T>`: `build` recursively builds
the inner builder (Rust's `T::build`, supplied explicitly). -/
def ExpectedResponseBuilder.build (bld : β → ρ) (b : ExpectedResponseBuilder β) :
    ExpectedResponse ρ :=
  ⟨b.content_type, bld b.other⟩

/-- `Buildable for ExpectedResponse<T>`: `builder()` is the default
builder over `T`'s builder type. -/
def ExpectedResponse.builder (d : β) : ExpectedResponseBuilder β :=
  ExpectedResponseBuilder.mkDefault d

end Mini

/-! ## The universe of serializable records

`Ty` enumerates the shapes a serializable record of this library can take:
the H-list constructors with flattened heads and tails, the HTTP
vocabulary records, and the hypermedia records with their extension
slots. `Val` interprets a shape as its Lean type, `ser`/`deser` as its
(de)serializer. -/

inductive Ty where
  | nil
  | cons (h t : Ty)
  | messageHeader
  | response
  | httpForm
  | expectedResponse (t : Ty)
  | additionalExpectedResponse (t : Ty)
  | form (t e : Ty)
  | interactionAffordance (t f r : Ty)
deriving DecidableEq, Repr

/-- The Lean type of values of a given record shape. -/
def Val : Ty → Type
  | .nil => Nil
  | .cons a b => Cons (Val a) (Val b)
  | .messageHeader => MessageHeader
  | .response => Response
  | .httpForm => Form
  | .expectedResponse t => Mini.ExpectedResponse (Val t)
  | .additionalExpectedResponse t => Mini.AdditionalExpectedResponse (Val t)
  | .form t e => Mini.Form (Val t) (Val e)
  | .interactionAffordance t f r => Mini.InteractionAffordance (Val t) (Val f) (Val r)

/-- Serialize a record into the key/value pairs it contributes to the
enclosing flat object. -/
def ser : (t : Ty) → Val t → Fields
  | .nil => Nil.serFields
  | .cons a b => fun v => ser a v.head ++ ser b v.tail
  | .messageHeader => MessageHeader.serFields
  | .response => Response.serFields
  | .httpForm => Form.serFields
  | .expectedResponse t => Mini.ExpectedResponse.serFields (ser t)
  | .additionalExpectedResponse t => Mini.AdditionalExpectedResponse.serFields (ser t)
  | .form t e => Mini.Form.serFields (ser t) (ser e)
  | .interactionAffordance t f r =>
    Mini.InteractionAffordance.serFields (ser t) (ser f) (ser r)

/-- Deserialize a record from the fields of the enclosing flat object
(serde's flatten semantics: every flattened participant reads from the
same buffered object, ignoring keys it does not recognize). -/
def deser : (t : Ty) → Fields → DeResult (Val t)
  | .nil => Nil.deserFields
  | .cons a b => fun fs => do
      let h ← deser a fs
      let t' ← deser b fs
      pure ⟨h, t'⟩
  | .messageHeader => MessageHeader.deserFields
  | .response => Response.deserFields
  | .httpForm => Form.deserFields
  | .expectedResponse t => Mini.ExpectedResponse.deserFields (deser t)
  | .additionalExpectedResponse t => Mini.AdditionalExpectedResponse.deserFields (deser t)
  | .form t e => Mini.Form.deserFields (deser t) (deser e)
  | .interactionAffordance t f r =>
    Mini.InteractionAffordance.deserFields (deser t)
      (Mini.Form.deserFields (deser f) (deser r))

/-- Serialize a record as a flat JSON object. -/
def tyToJson (t : Ty) (v : Val t) : Json :=
  .obj (ser t v)

/-- Deserialize a record from a JSON value (must be an object). -/
def tyFromJson (t : Ty) : Json → DeResult (Val t) :=
  parseObjWith (deser t)

/-- The fixed wire keys of `mini::Form`. -/
def formKeys : List String :=
  ["op", "href", "contentType", "contentCoding", "subprotocol",
   "security", "scopes", "response", "additionalResponse"]

/-- The fixed wire keys of `mini::InteractionAffordance`. -/
def iaKeys : List String :=
  ["@type", "title", "description", "forms"]

/-- The set of keys a record shape may claim from the flat object. -/
def tyKeys : Ty → List String
  | .nil => []
  | .cons a b => tyKeys a ++ tyKeys b
  | .messageHeader => ["htv:fieldName", "htv:fieldValue"]
  | .response => ["htv:headers", "htv:statusCodeValue"]
  | .httpForm => ["htv:methodName"]
  | .expectedResponse t => "contentType" :: tyKeys t
  | .additionalExpectedResponse t => "success" :: "contentType" :: tyKeys t
  | .form t _ => formKeys ++ tyKeys t
  | .interactionAffordance t _ _ => iaKeys ++ tyKeys t

/-- Disjointness of two key lists. -/
def keysDisjoint (xs ys : List String) : Bool :=
  xs.all (fun k => !(ys.contains k))

/-- The constituent key sets of a record shape are pairwise disjoint: at
every flattening site, the fixed keys of the record and the key sets of
its flattened components do not overlap. -/
def wfTy : Ty → Bool
  | .nil => true
  | .cons a b => keysDisjoint (tyKeys a) (tyKeys b) && wfTy a && wfTy b
  | .messageHeader => true
  | .response => true
  | .httpForm => true
  | .expectedResponse t => !((tyKeys t).contains "contentType") && wfTy t
  | .additionalExpectedResponse t =>
    !((tyKeys t).contains "success") && !((tyKeys t).contains "contentType") && wfTy t
  | .form t e =>
    keysDisjoint formKeys (tyKeys t) && wfTy t
      && !((tyKeys e).contains "contentType") && !((tyKeys e).contains "success") && wfTy e
  | .interactionAffordance t f r =>
    keysDisjoint iaKeys (tyKeys t) && wfTy t
      && keysDisjoint formKeys (tyKeys f) && wfTy f
      && !((tyKeys r).contains "contentType") && !((tyKeys r).contains "success") && wfTy r

/-! ## Lookup and monad infrastructure -/

theorem exceptBind_ok (a : α) (f : α → Except ε β) :
    (Except.ok a : Except ε α) >>= f = f a := rfl

theorem exceptBind_error (e : ε) (f : α → Except ε β) :
    (Except.error e : Except ε α) >>= f = .error e := rfl

theorem exceptBind_eq_ok {x : Except ε α} {f : α → Except ε β} {b : β} :
    x >>= f = .ok b ↔ ∃ a, x = .ok a ∧ f a = .ok b := by
  cases x <;> simp [exceptBind_ok, exceptBind_error]

theorem exceptMap_ok (f : α → β) (a : α) :
    Except.map f (Except.ok a : Except ε α) = .ok (f a) := rfl

theorem exceptMap_error (f : α → β) (e : ε) :
    Except.map f (Except.error e : Except ε α) = .error e := rfl

theorem exceptFmap_ok (f : α → β) (a : α) :
    (f <$> (Except.ok a : Except ε α)) = .ok (f a) := rfl

theorem lookupField_cons_self (k : String) (v : Json) (fs : Fields) :
    lookupField ((k, v) :: fs) k = some v := by
  simp [lookupField]

theorem lookupField_cons_ne (h : k' ≠ k) (v : Json) (fs : Fields) :
    lookupField ((k, v) :: fs) k' = lookupField fs k' := by
  simp [lookupField, h]

theorem lookupField_append (xs ys : Fields) (k : String) :
    lookupField (xs ++ ys) k =
      match lookupField xs k with
      | some v => some v
      | none => lookupField ys k := by
  induction xs with
  | nil => simp [lookupField]
  | cons p t ih =>
    obtain ⟨k1, v1⟩ := p
    by_cases h : k = k1 <;> simp [lookupField, h, ih]

theorem lookupField_append_right_none (h : lookupField ys k = none) (xs : Fields) :
    lookupField (xs ++ ys) k = lookupField xs k := by
  rw [lookupField_append]
  cases hx : lookupField xs k <;> simp [h]

theorem lookupField_append_left_none (h : lookupField xs k = none) (ys : Fields) :
    lookupField (xs ++ ys) k = lookupField ys k := by
  rw [lookupField_append, h]

/-- Every key of `xs` lies in `ks`. -/
def KeysIn (xs : Fields) (ks : List String) : Prop :=
  ∀ p ∈ xs, p.1 ∈ ks

theorem KeysIn.mono (h : KeysIn xs ks) (hsub : ∀ k ∈ ks, k ∈ ks') : KeysIn xs ks' :=
  fun p hp => hsub _ (h p hp)

theorem KeysIn.append (h1 : KeysIn xs ks) (h2 : KeysIn ys ks) : KeysIn (xs ++ ys) ks := by
  intro p hp
  rcases List.mem_append.mp hp with h | h
  · exact h1 p h
  · exact h2 p h

theorem lookupField_eq_none (h : ∀ p ∈ xs, p.1 ≠ k) : lookupField xs k = none := by
  induction xs with
  | nil => rfl
  | cons p t ih =>
    obtain ⟨k1, v1⟩ := p
    have hk : k ≠ k1 := fun he => h (k1, v1) (by simp) (by simp [he])
    rw [lookupField_cons_ne hk]
    exact ih fun q hq => h q (by simp [hq])

theorem lookupField_eq_none_of_keysIn (h : KeysIn xs ks) (hk : k ∉ ks) :
    lookupField xs k = none :=
  lookupField_eq_none fun p hp he => hk (he ▸ h p hp)

/-- `fs` and `fs'` agree on all lookups at keys in `ks`. -/
def Agrees (fs fs' : Fields) (ks : List String) : Prop :=
  ∀ k ∈ ks, lookupField fs k = lookupField fs' k

theorem Agrees.monoKeys (h : Agrees fs fs' ks') (hsub : ∀ k ∈ ks, k ∈ ks') :
    Agrees fs fs' ks :=
  fun k hk => h k (hsub k hk)

theorem mem_optField {p : String × Json} {g : α → Json} {o : Option α} :
    p ∈ optField k g o ↔ ∃ a, o = some a ∧ p = (k, g a) := by
  cases o <;> simp [optField]

theorem keysIn_optField (g : α → Json) (o : Option α) (h : k ∈ ks) :
    KeysIn (optField k g o) ks := by
  intro p hp
  rcases mem_optField.mp hp with ⟨a, _, rfl⟩
  exact h

theorem lookupField_optField_append_ne (h : k' ≠ k) (g : α → Json) (o : Option α)
    (rest : Fields) :
    lookupField (optField k g o ++ rest) k' = lookupField rest k' := by
  cases o <;> simp [optField, lookupField, h]

theorem lookupField_optField_append_self (g : α → Json) (o : Option α)
    (h : lookupField rest k = none) :
    lookupField (optField k g o ++ rest) k = o.map g := by
  cases o <;> simp [optField, lookupField, h]

/-! ## Evaluation lemmas for the field combinators -/

theorem mapParse_parseString_map_str (xs : List String) :
    mapParse parseString (xs.map Json.str) = .ok xs := by
  induction xs with
  | nil => rfl
  | cons x t ih => simp [mapParse, parseString, ih, exceptBind_ok]

theorem parseOneOrMany_ser (xs : List String) :
    parseOneOrManyStr (oneOrManySer xs) = .ok xs := by
  match xs with
  | [] => rfl
  | [x] => rfl
  | x :: y :: t =>
    have hm := mapParse_parseString_map_str (x :: y :: t)
    simp only [List.map_cons] at hm
    show parseOneOrManyStr (.arr ((x :: y :: t).map Json.str)) = _
    simp [parseOneOrManyStr, hm]

theorem getOpt_map_str (o : Option String) :
    getOpt (o.map Json.str) parseString = .ok o := by
  cases o <;> rfl

theorem getOpt_map_oneOrMany (o : Option (List String)) :
    getOpt (o.map oneOrManySer) parseOneOrManyStr = .ok o := by
  cases o with
  | none => rfl
  | some xs =>
    match xs with
    | [] => rfl
    | [x] => rfl
    | x :: y :: t =>
      have hm := mapParse_parseString_map_str (x :: y :: t)
      simp only [List.map_cons] at hm
      show getOpt (some (.arr ((x :: y :: t).map Json.str))) _ = _
      simp [getOpt, parseOneOrManyStr, hm, exceptMap_ok]

theorem getOpt_optJson_str (o : Option String) :
    getOpt (some (optJson Json.str o)) parseString = .ok o := by
  cases o <;> rfl

theorem getOpt_optJson_usize (o : Option Nat) :
    getOpt (some (optJson (fun n => Json.num (Int.ofNat n)) o)) parseUsize = .ok o := by
  cases o with
  | none => rfl
  | some n => simp [optJson, getOpt, parseUsize, Int.toNat_ofNat, exceptMap_ok]

theorem getOpt_optJson_method (o : Option Method) :
    getOpt (some (optJson Method.toJson o)) Method.fromJson = .ok o := by
  cases o with
  | none => rfl
  | some m => cases m <;> rfl

theorem getOpt_map_objWith (σx : α → Fields) (px : Fields → DeResult α)
    (h : ∀ a, px (σx a) = .ok a) (o : Option α) :
    getOpt (o.map (fun a => Json.obj (σx a))) (parseObjWith px) = .ok o := by
  cases o <;> simp [getOpt, parseObjWith, h, exceptMap_ok]

theorem getD_toOption_ops (op : Mini.DefaultedFormOperations) :
    getD (op.toOption.map (fun ops => Json.arr (ops.map Json.str)))
      Mini.DefaultedFormOperations.parse .default = .ok op := by
  cases op with
  | default => rfl
  | custom ops =>
    simp [Mini.DefaultedFormOperations.toOption, getD,
      Mini.DefaultedFormOperations.parse, mapParse_parseString_map_str, exceptMap_ok]

/-! ## Per-record key, framing and round-trip lemmas -/

theorem messageHeader_keysIn (h : MessageHeader) :
    KeysIn h.serFields ["htv:fieldName", "htv:fieldValue"] := by
  intro p hp
  simp only [MessageHeader.serFields, List.mem_cons, List.not_mem_nil, or_false] at hp
  rcases hp with rfl | rfl <;> simp

theorem messageHeader_frame (h : Agrees fs fs' ["htv:fieldName", "htv:fieldValue"]) :
    MessageHeader.deserFields fs = MessageHeader.deserFields fs' := by
  have h1 := h "htv:fieldName" (by simp)
  have h2 := h "htv:fieldValue" (by simp)
  simp only [MessageHeader.deserFields, h1, h2]

theorem messageHeader_roundtrip (h : MessageHeader) :
    MessageHeader.deserFields h.serFields = .ok h := by
  obtain ⟨fn, fv⟩ := h
  cases fn <;> cases fv <;> rfl

theorem mapParse_messageHeaders (hs : List MessageHeader) :
    mapParse (parseObjWith MessageHeader.deserFields) (hs.map MessageHeader.toJson)
      = .ok hs := by
  induction hs with
  | nil => rfl
  | cons h t ih =>
    simp [mapParse, MessageHeader.toJson, parseObjWith, messageHeader_roundtrip h, ih,
      exceptBind_ok]

theorem response_keysIn (r : Response) :
    KeysIn r.serFields ["htv:headers", "htv:statusCodeValue"] := by
  intro p hp
  simp only [Response.serFields, List.mem_cons, List.not_mem_nil, or_false] at hp
  rcases hp with rfl | rfl <;> simp

theorem response_frame (h : Agrees fs fs' ["htv:headers", "htv:statusCodeValue"]) :
    Response.deserFields fs = Response.deserFields fs' := by
  have h1 := h "htv:headers" (by simp)
  have h2 := h "htv:statusCodeValue" (by simp)
  simp only [Response.deserFields, h1, h2]

theorem response_roundtrip (r : Response) :
    Response.deserFields r.serFields = .ok r := by
  obtain ⟨hs, sc⟩ := r
  simp only [Response.serFields, Response.deserFields]
  rw [lookupField_cons_self, lookupField_cons_ne (by decide), lookupField_cons_self,
    getOpt_optJson_usize]
  simp [getReq, parseArr, mapParse_messageHeaders, exceptBind_ok, exceptFmap_ok]

theorem httpForm_keysIn (f : Form) :
    KeysIn f.serFields ["htv:methodName"] := by
  intro p hp
  simp only [Form.serFields, List.mem_cons, List.not_mem_nil, or_false] at hp
  rcases hp with rfl
  simp

theorem httpForm_frame (h : Agrees fs fs' ["htv:methodName"]) :
    Form.deserFields fs = Form.deserFields fs' := by
  have h1 := h "htv:methodName" (by simp)
  simp only [Form.deserFields, h1]

theorem httpForm_roundtrip (f : Form) :
    Form.deserFields f.serFields = .ok f := by
  obtain ⟨m⟩ := f
  simp only [Form.serFields, Form.deserFields]
  rw [lookupField_cons_self]
  simp [getOpt_optJson_method, exceptBind_ok]

theorem expectedResponse_keysIn (σ : α → Fields) (ks : List String)
    (hσ : ∀ a, KeysIn (σ a) ks) (r : Mini.ExpectedResponse α) :
    KeysIn (Mini.ExpectedResponse.serFields σ r) ("contentType" :: ks) := by
  intro p hp
  rcases List.mem_cons.mp hp with rfl | hp
  · simp
  · exact List.mem_cons_of_mem _ (hσ _ _ hp)

theorem expectedResponse_frame (δ : Fields → DeResult α) (ks : List String)
    (hδ : ∀ fs fs', Agrees fs fs' ks → δ fs = δ fs')
    (h : Agrees fs fs' ("contentType" :: ks)) :
    Mini.ExpectedResponse.deserFields δ fs = Mini.ExpectedResponse.deserFields δ fs' := by
  have h1 := h "contentType" (by simp)
  have h2 : δ fs = δ fs' := hδ _ _ fun k hk => h k (List.mem_cons_of_mem _ hk)
  simp only [Mini.ExpectedResponse.deserFields, h1, h2]

theorem expectedResponse_roundtrip (σ : α → Fields) (δ : Fields → DeResult α)
    (ks : List String)
    (hδfr : ∀ fs fs', Agrees fs fs' ks → δ fs = δ fs')
    (hδrt : ∀ a, δ (σ a) = .ok a)
    (hct : "contentType" ∉ ks)
    (r : Mini.ExpectedResponse α) :
    Mini.ExpectedResponse.deserFields δ (Mini.ExpectedResponse.serFields σ r) = .ok r := by
  obtain ⟨ct, o⟩ := r
  have hsk : δ (("contentType", Json.str ct) :: σ o) = δ (σ o) := by
    apply hδfr
    intro k hk
    have hne : k ≠ "contentType" := by rintro rfl; exact hct hk
    exact lookupField_cons_ne hne _ _
  simp only [Mini.ExpectedResponse.serFields, Mini.ExpectedResponse.deserFields]
  rw [lookupField_cons_self]
  simp [getReq, parseString, hsk, hδrt, exceptBind_ok, exceptFmap_ok]

theorem additionalExpectedResponse_keysIn (σ : α → Fields) (ks : List String)
    (hσ : ∀ a, KeysIn (σ a) ks) (r : Mini.AdditionalExpectedResponse α) :
    KeysIn (Mini.AdditionalExpectedResponse.serFields σ r)
      ("success" :: "contentType" :: ks) := by
  intro p hp
  rcases List.mem_cons.mp hp with rfl | hp
  · simp
  · rcases List.mem_cons.mp hp with rfl | hp
    · simp
    · exact List.mem_cons_of_mem _ (List.mem_cons_of_mem _ (hσ _ _ hp))

theorem additionalExpectedResponse_frame (δ : Fields → DeResult α) (ks : List String)
    (hδ : ∀ fs fs', Agrees fs fs' ks → δ fs = δ fs')
    (h : Agrees fs fs' ("success" :: "contentType" :: ks)) :
    Mini.AdditionalExpectedResponse.deserFields δ fs
      = Mini.AdditionalExpectedResponse.deserFields δ fs' := by
  have h1 := h "success" (by simp)
  have h2 := h "contentType" (by simp)
  have h3 : δ fs = δ fs' :=
    hδ _ _ fun k hk => h k (List.mem_cons_of_mem _ (List.mem_cons_of_mem _ hk))
  simp only [Mini.AdditionalExpectedResponse.deserFields, h1, h2, h3]

theorem additionalExpectedResponse_roundtrip (σ : α → Fields) (δ : Fields → DeResult α)
    (ks : List String)
    (hδfr : ∀ fs fs', Agrees fs fs' ks → δ fs = δ fs')
    (hδrt : ∀ a, δ (σ a) = .ok a)
    (hsu : "success" ∉ ks)
    (hct : "contentType" ∉ ks)
    (r : Mini.AdditionalExpectedResponse α) :
    Mini.AdditionalExpectedResponse.deserFields δ
      (Mini.AdditionalExpectedResponse.serFields σ r) = .ok r := by
  obtain ⟨su, ct, o⟩ := r
  have hsk : δ (("success", Json.bool su) :: ("contentType", Json.str ct) :: σ o)
      = δ (σ o) := by
    apply hδfr
    intro k hk
    have hne1 : k ≠ "success" := by rintro rfl; exact hsu hk
    have hne2 : k ≠ "contentType" := by rintro rfl; exact hct hk
    rw [lookupField_cons_ne hne1, lookupField_cons_ne hne2]
  simp only [Mini.AdditionalExpectedResponse.serFields,
    Mini.AdditionalExpectedResponse.deserFields]
  rw [lookupField_cons_self, lookupField_cons_ne (by decide), lookupField_cons_self]
  simp [getReq, getD, parseBool, parseString, hsk, hδrt, exceptBind_ok, exceptFmap_ok]

/-! ## `mini::Form` lookup lemmas

Each lemma computes the value found at one fixed key of a serialized
`mini::Form`; `hnone` supplies that the flattened extension does not also
claim the key. -/

theorem lookupField_optField_ne (h : k' ≠ k) (g : α → Json) (o : Option α) :
    lookupField (optField k g o) k' = none := by
  cases o <;> simp [optField, lookupField, h]

theorem optField_none (k : String) (g : α → Json) : optField k g none = [] := rfl

theorem optField_some (k : String) (g : α → Json) (a : α) :
    optField k g (some a) = [(k, g a)] := rfl

theorem miniForm_lookup_ser_op (σ : τ → Fields) (σe : ε → Fields) (f : Mini.Form τ ε)
    (hnone : lookupField (σ f.other) "op" = none) :
    lookupField (Mini.Form.serFields σ σe f) "op"
      = f.op.toOption.map (fun ops => Json.arr (ops.map Json.str)) := by
  cases ho : f.op.toOption <;>
    simp [Mini.Form.serFields, Mini.DefaultedFormOperations.serFields, ho,
      List.append_assoc, optField_none, optField_some, lookupField_cons_ne,
      lookupField_cons_self, lookupField_optField_append_ne, hnone]

theorem miniForm_lookup_ser_href (σ : τ → Fields) (σe : ε → Fields) (f : Mini.Form τ ε) :
    lookupField (Mini.Form.serFields σ σe f) "href" = some (Json.str f.href) := by
  simp [Mini.Form.serFields, Mini.DefaultedFormOperations.serFields, List.append_assoc,
    lookupField_optField_append_ne, lookupField_cons_self]

theorem miniForm_lookup_ser_contentType (σ : τ → Fields) (σe : ε → Fields)
    (f : Mini.Form τ ε) :
    lookupField (Mini.Form.serFields σ σe f) "contentType"
      = some (Json.str f.content_type) := by
  simp [Mini.Form.serFields, Mini.DefaultedFormOperations.serFields, List.append_assoc,
    lookupField_optField_append_ne, lookupField_cons_ne, lookupField_cons_self]

theorem miniForm_lookup_ser_contentCoding (σ : τ → Fields) (σe : ε → Fields)
    (f : Mini.Form τ ε)
    (hnone : lookupField (σ f.other) "contentCoding" = none) :
    lookupField (Mini.Form.serFields σ σe f) "contentCoding"
      = f.content_coding.map Json.str := by
  cases hc : f.content_coding <;>
    simp [Mini.Form.serFields, Mini.DefaultedFormOperations.serFields, hc,
      List.append_assoc, optField_none, optField_some, lookupField_cons_ne,
      lookupField_cons_self, lookupField_optField_append_ne, hnone]

theorem miniForm_lookup_ser_subprotocol (σ : τ → Fields) (σe : ε → Fields)
    (f : Mini.Form τ ε)
    (hnone : lookupField (σ f.other) "subprotocol" = none) :
    lookupField (Mini.Form.serFields σ σe f) "subprotocol"
      = f.subprotocol.map Json.str := by
  cases hc : f.subprotocol <;>
    simp [Mini.Form.serFields, Mini.DefaultedFormOperations.serFields, hc,
      List.append_assoc, optField_none, optField_some, lookupField_cons_ne,
      lookupField_cons_self, lookupField_optField_append_ne, hnone]

theorem miniForm_lookup_ser_security (σ : τ → Fields) (σe : ε → Fields)
    (f : Mini.Form τ ε)
    (hnone : lookupField (σ f.other) "security" = none) :
    lookupField (Mini.Form.serFields σ σe f) "security"
      = f.security.map oneOrManySer := by
  cases hc : f.security <;>
    simp [Mini.Form.serFields, Mini.DefaultedFormOperations.serFields, hc,
      List.append_assoc, optField_none, optField_some, lookupField_cons_ne,
      lookupField_cons_self, lookupField_optField_append_ne, hnone]

theorem miniForm_lookup_ser_scopes (σ : τ → Fields) (σe : ε → Fields)
    (f : Mini.Form τ ε)
    (hnone : lookupField (σ f.other) "scopes" = none) :
    lookupField (Mini.Form.serFields σ σe f) "scopes"
      = f.scopes.map oneOrManySer := by
  cases hc : f.scopes <;>
    simp [Mini.Form.serFields, Mini.DefaultedFormOperations.serFields, hc,
      List.append_assoc, optField_none, optField_some, lookupField_cons_ne,
      lookupField_cons_self, lookupField_optField_append_ne, hnone]

theorem miniForm_lookup_ser_response (σ : τ → Fields) (σe : ε → Fields)
    (f : Mini.Form τ ε)
    (hnone : lookupField (σ f.other) "response" = none) :
    lookupField (Mini.Form.serFields σ σe f) "response"
      = f.response.map (fun r => Json.obj (Mini.ExpectedResponse.serFields σe r)) := by
  cases hc : f.response <;>
    simp [Mini.Form.serFields, Mini.DefaultedFormOperations.serFields, hc,
      List.append_assoc, optField_none, optField_some, lookupField_cons_ne,
      lookupField_cons_self, lookupField_optField_append_ne, hnone]

theorem miniForm_lookup_ser_additionalResponse (σ : τ → Fields) (σe : ε → Fields)
    (f : Mini.Form τ ε)
    (hnone : lookupField (σ f.other) "additionalResponse" = none) :
    lookupField (Mini.Form.serFields σ σe f) "additionalResponse"
      = f.additional_response.map
          (fun r => Json.obj (Mini.AdditionalExpectedResponse.serFields σe r)) := by
  cases hc : f.additional_response <;>
    simp [Mini.Form.serFields, Mini.DefaultedFormOperations.serFields, hc,
      List.append_assoc, optField_none, optField_some, lookupField_cons_ne,
      lookupField_cons_self, lookupField_optField_append_ne, hnone]

theorem miniForm_lookup_ser_not_fixed (σ : τ → Fields) (σe : ε → Fields)
    (f : Mini.Form τ ε) (hk : k ∉ formKeys) :
    lookupField (Mini.Form.serFields σ σe f) k = lookupField (σ f.other) k := by
  have hne : ∀ k0 ∈ formKeys, k ≠ k0 := by
    intro k0 h0
    rintro rfl
    exact hk h0
  simp only [Mini.Form.serFields, Mini.DefaultedFormOperations.serFields, List.append_assoc]
  rw [lookupField_optField_append_ne (hne "op" (by simp [formKeys])),
    lookupField_cons_ne (hne "href" (by simp [formKeys])),
    lookupField_cons_ne (hne "contentType" (by simp [formKeys])),
    lookupField_optField_append_ne (hne "contentCoding" (by simp [formKeys])),
    lookupField_optField_append_ne (hne "subprotocol" (by simp [formKeys])),
    lookupField_optField_append_ne (hne "security" (by simp [formKeys])),
    lookupField_optField_append_ne (hne "scopes" (by simp [formKeys])),
    lookupField_optField_append_ne (hne "response" (by simp [formKeys])),
    lookupField_optField_append_ne (hne "additionalResponse" (by simp [formKeys]))]

theorem KeysIn.cons {x : String × Json} (hx : x.1 ∈ ks) (h : KeysIn xs ks) :
    KeysIn (x :: xs) ks := by
  intro p hp
  rcases List.mem_cons.mp hp with rfl | hp
  · exact hx
  · exact h p hp

theorem miniForm_keysIn (σ : τ → Fields) (σe : ε → Fields) (ks : List String)
    (hσ : ∀ a, KeysIn (σ a) ks) (f : Mini.Form τ ε) :
    KeysIn (Mini.Form.serFields σ σe f) (formKeys ++ ks) := by
  have hG : KeysIn (σ f.other) (formKeys ++ ks) :=
    (hσ f.other).mono fun k hk => List.mem_append_right _ hk
  have t1 : KeysIn (optField "contentCoding" Json.str f.content_coding)
      (formKeys ++ ks) := keysIn_optField _ _ (by simp [formKeys])
  have t2 : KeysIn (optField "subprotocol" Json.str f.subprotocol)
      (formKeys ++ ks) := keysIn_optField _ _ (by simp [formKeys])
  have t3 : KeysIn (optField "security" oneOrManySer f.security)
      (formKeys ++ ks) := keysIn_optField _ _ (by simp [formKeys])
  have t4 : KeysIn (optField "scopes" oneOrManySer f.scopes)
      (formKeys ++ ks) := keysIn_optField _ _ (by simp [formKeys])
  have t5 : KeysIn (optField "response"
      (fun r => Json.obj (Mini.ExpectedResponse.serFields σe r)) f.response)
      (formKeys ++ ks) := keysIn_optField _ _ (by simp [formKeys])
  have t6 : KeysIn (optField "additionalResponse"
      (fun r => Json.obj (Mini.AdditionalExpectedResponse.serFields σe r))
      f.additional_response)
      (formKeys ++ ks) := keysIn_optField _ _ (by simp [formKeys])
  have t0 : KeysIn (optField "op" (fun ops => Json.arr (ops.map Json.str)) f.op.toOption)
      (formKeys ++ ks) := keysIn_optField _ _ (by simp [formKeys])
  have tmid := (((((t1.append t2).append t3).append t4).append t5).append t6).append hG
  have tc2 := KeysIn.cons (x := ("contentType", Json.str f.content_type))
    (by simp [formKeys]) tmid
  have tc1 := KeysIn.cons (x := ("href", Json.str f.href)) (by simp [formKeys]) tc2
  simp only [Mini.Form.serFields, Mini.DefaultedFormOperations.serFields]
  exact t0.append tc1

theorem miniForm_frame (δ : Fields → DeResult τ) (δe : Fields → DeResult ε)
    (ks : List String)
    (hδ : ∀ fs fs', Agrees fs fs' ks → δ fs = δ fs')
    (h : Agrees fs fs' (formKeys ++ ks)) :
    Mini.Form.deserFields δ δe fs = Mini.Form.deserFields δ δe fs' := by
  have h1 := h "op" (by simp [formKeys])
  have h2 := h "href" (by simp [formKeys])
  have h3 := h "contentType" (by simp [formKeys])
  have h4 := h "contentCoding" (by simp [formKeys])
  have h5 := h "subprotocol" (by simp [formKeys])
  have h6 := h "security" (by simp [formKeys])
  have h7 := h "scopes" (by simp [formKeys])
  have h8 := h "response" (by simp [formKeys])
  have h9 := h "additionalResponse" (by simp [formKeys])
  have h10 : δ fs = δ fs' := hδ _ _ fun k hk => h k (List.mem_append_right _ hk)
  simp only [Mini.Form.deserFields, h1, h2, h3, h4, h5, h6, h7, h8, h9, h10]

theorem miniForm_roundtrip (σ : τ → Fields) (δ : Fields → DeResult τ) (ks : List String)
    (σe : ε → Fields) (δe : Fields → DeResult ε)
    (hσ : ∀ a, KeysIn (σ a) ks)
    (hδfr : ∀ fs fs', Agrees fs fs' ks → δ fs = δ fs')
    (hδrt : ∀ a, δ (σ a) = .ok a)
    (hdisj : ∀ k, k ∈ formKeys → k ∉ ks)
    (hrtE : ∀ r : Mini.ExpectedResponse ε,
      Mini.ExpectedResponse.deserFields δe (Mini.ExpectedResponse.serFields σe r) = .ok r)
    (hrtA : ∀ r : Mini.AdditionalExpectedResponse ε,
      Mini.AdditionalExpectedResponse.deserFields δe
        (Mini.AdditionalExpectedResponse.serFields σe r) = .ok r)
    (f : Mini.Form τ ε) :
    Mini.Form.deserFields δ δe (Mini.Form.serFields σ σe f) = .ok f := by
  have hext : ∀ k, k ∈ formKeys → lookupField (σ f.other) k = none :=
    fun k hk => lookupField_eq_none_of_keysIn (hσ _) (hdisj k hk)
  have h1 := miniForm_lookup_ser_op σ σe f (hext _ (by simp [formKeys]))
  have h2 := miniForm_lookup_ser_href σ σe f
  have h3 := miniForm_lookup_ser_contentType σ σe f
  have h4 := miniForm_lookup_ser_contentCoding σ σe f (hext _ (by simp [formKeys]))
  have h5 := miniForm_lookup_ser_subprotocol σ σe f (hext _ (by simp [formKeys]))
  have h6 := miniForm_lookup_ser_security σ σe f (hext _ (by simp [formKeys]))
  have h7 := miniForm_lookup_ser_scopes σ σe f (hext _ (by simp [formKeys]))
  have h8 := miniForm_lookup_ser_response σ σe f (hext _ (by simp [formKeys]))
  have h9 := miniForm_lookup_ser_additionalResponse σ σe f (hext _ (by simp [formKeys]))
  have hδE : δ (Mini.Form.serFields σ σe f) = .ok f.other := by
    rw [hδfr _ _ fun k hk =>
      miniForm_lookup_ser_not_fixed σ σe f fun hmem => hdisj k hmem hk]
    exact hδrt f.other
  simp only [Mini.Form.deserFields, h1, h2, h3, h4, h5, h6, h7, h8, h9, hδE]
  rw [getD_toOption_ops]
  simp only [getReq, getD, parseString, getOpt_map_str, getOpt_map_oneOrMany,
    getOpt_map_objWith _ _ hrtE, getOpt_map_objWith _ _ hrtA,
    exceptBind_ok, exceptFmap_ok]
  rfl

theorem mapParse_map_obj (σx : α → Fields) (px : Fields → DeResult α)
    (h : ∀ a, px (σx a) = .ok a) (xs : List α) :
    mapParse (parseObjWith px) (xs.map fun a => Json.obj (σx a)) = .ok xs := by
  induction xs with
  | nil => rfl
  | cons x t ih => simp [mapParse, parseObjWith, h, ih, exceptBind_ok]

theorem ia_lookup_ser_attype (σ : τ → Fields) (σf : φ → Fields)
    (σr : ρ → Fields) (a : Mini.InteractionAffordance τ φ ρ)
    (hnone : lookupField (σ a.other) "@type" = none) :
    lookupField (Mini.InteractionAffordance.serFields σ σf σr a) "@type"
      = a.attype.map oneOrManySer := by
  cases hc : a.attype <;>
    simp [Mini.InteractionAffordance.serFields, hc, List.append_assoc, optField_none,
      optField_some, lookupField_cons_ne, lookupField_cons_self,
      lookupField_optField_append_ne, hnone]

theorem ia_lookup_ser_title (σ : τ → Fields) (σf : φ → Fields)
    (σr : ρ → Fields) (a : Mini.InteractionAffordance τ φ ρ)
    (hnone : lookupField (σ a.other) "title" = none) :
    lookupField (Mini.InteractionAffordance.serFields σ σf σr a) "title"
      = a.title.map Json.str := by
  cases hc : a.title <;>
    simp [Mini.InteractionAffordance.serFields, hc, List.append_assoc, optField_none,
      optField_some, lookupField_cons_ne, lookupField_cons_self,
      lookupField_optField_append_ne, hnone]

theorem ia_lookup_ser_description (σ : τ → Fields) (σf : φ → Fields)
    (σr : ρ → Fields) (a : Mini.InteractionAffordance τ φ ρ)
    (hnone : lookupField (σ a.other) "description" = none) :
    lookupField (Mini.InteractionAffordance.serFields σ σf σr a) "description"
      = a.description.map Json.str := by
  cases hc : a.description <;>
    simp [Mini.InteractionAffordance.serFields, hc, List.append_assoc, optField_none,
      optField_some, lookupField_cons_ne, lookupField_cons_self,
      lookupField_optField_append_ne, hnone]

theorem ia_lookup_ser_forms (σ : τ → Fields) (σf : φ → Fields)
    (σr : ρ → Fields) (a : Mini.InteractionAffordance τ φ ρ) :
    lookupField (Mini.InteractionAffordance.serFields σ σf σr a) "forms"
      = some (Json.arr (a.forms.map fun f => Json.obj (Mini.Form.serFields σf σr f))) := by
  simp [Mini.InteractionAffordance.serFields, List.append_assoc,
    lookupField_optField_append_ne, lookupField_cons_self]

theorem ia_lookup_ser_not_fixed (σ : τ → Fields) (σf : φ → Fields)
    (σr : ρ → Fields) (a : Mini.InteractionAffordance τ φ ρ) (hk : k ∉ iaKeys) :
    lookupField (Mini.InteractionAffordance.serFields σ σf σr a) k
      = lookupField (σ a.other) k := by
  have hne : ∀ k0 ∈ iaKeys, k ≠ k0 := by
    intro k0 h0
    rintro rfl
    exact hk h0
  simp only [Mini.InteractionAffordance.serFields, List.append_assoc]
  rw [lookupField_optField_append_ne (hne "@type" (by simp [iaKeys])),
    lookupField_optField_append_ne (hne "title" (by simp [iaKeys])),
    lookupField_optField_append_ne (hne "description" (by simp [iaKeys])),
    lookupField_cons_ne (hne "forms" (by simp [iaKeys]))]

theorem ia_keysIn (σ : τ → Fields) (σf : φ → Fields)
    (σr : ρ → Fields) (ks : List String)
    (hσ : ∀ a, KeysIn (σ a) ks) (a : Mini.InteractionAffordance τ φ ρ) :
    KeysIn (Mini.InteractionAffordance.serFields σ σf σr a) (iaKeys ++ ks) := by
  have hG : KeysIn (σ a.other) (iaKeys ++ ks) :=
    (hσ a.other).mono fun k hk => List.mem_append_right _ hk
  have t1 : KeysIn (optField "@type" oneOrManySer a.attype) (iaKeys ++ ks) :=
    keysIn_optField _ _ (by simp [iaKeys])
  have t2 : KeysIn (optField "title" Json.str a.title) (iaKeys ++ ks) :=
    keysIn_optField _ _ (by simp [iaKeys])
  have t3 : KeysIn (optField "description" Json.str a.description) (iaKeys ++ ks) :=
    keysIn_optField _ _ (by simp [iaKeys])
  have tc := KeysIn.cons
    (x := ("forms", Json.arr (a.forms.map fun f => Json.obj (Mini.Form.serFields σf σr f))))
    (by simp [iaKeys]) hG
  simp only [Mini.InteractionAffordance.serFields]
  exact ((t1.append t2).append t3).append tc

theorem ia_frame (δ : Fields → DeResult τ)
    (δf : Fields → DeResult (Mini.Form φ ρ)) (ks : List String)
    (hδ : ∀ fs fs', Agrees fs fs' ks → δ fs = δ fs')
    (h : Agrees fs fs' (iaKeys ++ ks)) :
    Mini.InteractionAffordance.deserFields δ δf fs
      = Mini.InteractionAffordance.deserFields δ δf fs' := by
  have h1 := h "@type" (by simp [iaKeys])
  have h2 := h "title" (by simp [iaKeys])
  have h3 := h "description" (by simp [iaKeys])
  have h4 := h "forms" (by simp [iaKeys])
  have h5 : δ fs = δ fs' := hδ _ _ fun k hk => h k (List.mem_append_right _ hk)
  simp only [Mini.InteractionAffordance.deserFields, h1, h2, h3, h4, h5]

theorem ia_roundtrip (σ : τ → Fields) (δ : Fields → DeResult τ)
    (ks : List String) (σf : φ → Fields) (σr : ρ → Fields)
    (δf : Fields → DeResult (Mini.Form φ ρ))
    (hσ : ∀ a, KeysIn (σ a) ks)
    (hδfr : ∀ fs fs', Agrees fs fs' ks → δ fs = δ fs')
    (hδrt : ∀ a, δ (σ a) = .ok a)
    (hdisj : ∀ k, k ∈ iaKeys → k ∉ ks)
    (hrtF : ∀ f : Mini.Form φ ρ, δf (Mini.Form.serFields σf σr f) = .ok f)
    (a : Mini.InteractionAffordance τ φ ρ) :
    Mini.InteractionAffordance.deserFields δ δf
      (Mini.InteractionAffordance.serFields σ σf σr a) = .ok a := by
  have hext : ∀ k, k ∈ iaKeys → lookupField (σ a.other) k = none :=
    fun k hk => lookupField_eq_none_of_keysIn (hσ _) (hdisj k hk)
  have h1 := ia_lookup_ser_attype σ σf σr a
    (hext _ (by simp [iaKeys]))
  have h2 := ia_lookup_ser_title σ σf σr a
    (hext _ (by simp [iaKeys]))
  have h3 := ia_lookup_ser_description σ σf σr a
    (hext _ (by simp [iaKeys]))
  have h4 := ia_lookup_ser_forms σ σf σr a
  have hδE : δ (Mini.InteractionAffordance.serFields σ σf σr a) = .ok a.other := by
    rw [hδfr _ _ fun k hk =>
      ia_lookup_ser_not_fixed σ σf σr a
        fun hmem => hdisj k hmem hk]
    exact hδrt a.other
  simp only [Mini.InteractionAffordance.deserFields, h1, h2, h3, h4, hδE]
  simp only [getReq, parseArr, mapParse_map_obj _ _ hrtF, getOpt_map_str,
    getOpt_map_oneOrMany, exceptBind_ok, exceptFmap_ok]
  rfl

/-! ## Universe-level serialization facts -/

theorem keysDisjoint_spec (h : keysDisjoint xs ys = true) : ∀ k ∈ xs, k ∉ ys := by
  intro k hk
  have hx := List.all_eq_true.mp h k hk
  simp at hx
  exact hx

theorem ser_keysIn : ∀ (t : Ty) (v : Val t), KeysIn (ser t v) (tyKeys t) := by
  intro t
  induction t with
  | nil =>
    intro v p hp
    simp [ser, Nil.serFields] at hp
  | cons a b iha ihb =>
    intro v
    simp only [ser, tyKeys]
    exact ((iha v.head).mono fun k hk => List.mem_append_left _ hk).append
      ((ihb v.tail).mono fun k hk => List.mem_append_right _ hk)
  | messageHeader =>
    intro v
    simp only [ser, tyKeys]
    exact messageHeader_keysIn v
  | response =>
    intro v
    simp only [ser, tyKeys]
    exact response_keysIn v
  | httpForm =>
    intro v
    simp only [ser, tyKeys]
    exact httpForm_keysIn v
  | expectedResponse t ih =>
    intro v
    simp only [ser, tyKeys]
    exact expectedResponse_keysIn _ _ ih v
  | additionalExpectedResponse t ih =>
    intro v
    simp only [ser, tyKeys]
    exact additionalExpectedResponse_keysIn _ _ ih v
  | form t e iht ihe =>
    intro v
    simp only [ser, tyKeys]
    exact miniForm_keysIn _ _ _ iht v
  | interactionAffordance t f r iht ihf ihr =>
    intro v
    simp only [ser, tyKeys]
    exact ia_keysIn _ _ _ _ iht v

theorem deser_frame : ∀ (t : Ty) (fs fs' : Fields), Agrees fs fs' (tyKeys t) →
    deser t fs = deser t fs' := by
  intro t
  induction t with
  | nil => intro fs fs' _; rfl
  | cons a b iha ihb =>
    intro fs fs' h
    simp only [deser]
    rw [iha fs fs' (h.monoKeys fun k hk => by simp only [tyKeys]; exact List.mem_append_left _ hk),
      ihb fs fs' (h.monoKeys fun k hk => by simp only [tyKeys]; exact List.mem_append_right _ hk)]
  | messageHeader => exact fun fs fs' h => messageHeader_frame h
  | response => exact fun fs fs' h => response_frame h
  | httpForm => exact fun fs fs' h => httpForm_frame h
  | expectedResponse t ih =>
    exact fun fs fs' h => expectedResponse_frame _ _ ih h
  | additionalExpectedResponse t ih =>
    exact fun fs fs' h => additionalExpectedResponse_frame _ _ ih h
  | form t e iht ihe =>
    exact fun fs fs' h => miniForm_frame _ _ _ iht h
  | interactionAffordance t f r iht ihf ihr =>
    exact fun fs fs' h => ia_frame _ _ _ iht h

theorem deser_ser : ∀ (t : Ty), wfTy t = true → ∀ (v : Val t), deser t (ser t v) = .ok v := by
  intro t
  induction t with
  | nil =>
    intro _ v
    cases v
    rfl
  | cons a b iha ihb =>
    intro hwf v
    simp only [wfTy, Bool.and_eq_true] at hwf
    obtain ⟨⟨hd, hwa⟩, hwb⟩ := hwf
    have hdisj := keysDisjoint_spec hd
    simp only [deser, ser]
    have h1 : deser a (ser a v.head ++ ser b v.tail) = deser a (ser a v.head) :=
      deser_frame a _ _ fun k hk =>
        lookupField_append_right_none
          (lookupField_eq_none_of_keysIn (ser_keysIn b v.tail) (hdisj k hk)) _
    have h2 : deser b (ser a v.head ++ ser b v.tail) = deser b (ser b v.tail) :=
      deser_frame b _ _ fun k hk =>
        lookupField_append_left_none
          (lookupField_eq_none_of_keysIn (ser_keysIn a v.head)
            fun hka => hdisj k hka hk) _
    rw [h1, h2, iha hwa v.head, ihb hwb v.tail]
    rfl
  | messageHeader => exact fun _ v => messageHeader_roundtrip v
  | response => exact fun _ v => response_roundtrip v
  | httpForm => exact fun _ v => httpForm_roundtrip v
  | expectedResponse t ih =>
    intro hwf v
    simp only [wfTy, Bool.and_eq_true] at hwf
    obtain ⟨hct, hwt⟩ := hwf
    have hct' : "contentType" ∉ tyKeys t := by simpa using hct
    simp only [deser, ser]
    exact expectedResponse_roundtrip _ _ _ (deser_frame t) (ih hwt) hct' v
  | additionalExpectedResponse t ih =>
    intro hwf v
    simp only [wfTy, Bool.and_eq_true] at hwf
    obtain ⟨⟨hsu, hct⟩, hwt⟩ := hwf
    have hsu' : "success" ∉ tyKeys t := by simpa using hsu
    have hct' : "contentType" ∉ tyKeys t := by simpa using hct
    simp only [deser, ser]
    exact additionalExpectedResponse_roundtrip _ _ _ (deser_frame t) (ih hwt)
      hsu' hct' v
  | form t e iht ihe =>
    intro hwf v
    simp only [wfTy, Bool.and_eq_true] at hwf
    obtain ⟨⟨⟨⟨hd, hwt⟩, hcte⟩, hsue⟩, hwe⟩ := hwf
    have hcte' : "contentType" ∉ tyKeys e := by simpa using hcte
    have hsue' : "success" ∉ tyKeys e := by simpa using hsue
    have hrtE := expectedResponse_roundtrip (ser e) (deser e) (tyKeys e)
      (deser_frame e) (ihe hwe) hcte'
    have hrtA := additionalExpectedResponse_roundtrip (ser e) (deser e) (tyKeys e)
      (deser_frame e) (ihe hwe) hsue' hcte'
    simp only [deser, ser]
    exact miniForm_roundtrip _ _ _ _ _ (ser_keysIn t) (deser_frame t) (iht hwt)
      (keysDisjoint_spec hd) hrtE hrtA v
  | interactionAffordance t f r iht ihf ihr =>
    intro hwf v
    simp only [wfTy, Bool.and_eq_true] at hwf
    obtain ⟨⟨⟨⟨⟨⟨hdia, hwt⟩, hdf⟩, hwf'⟩, hctr⟩, hsur⟩, hwr⟩ := hwf
    have hctr' : "contentType" ∉ tyKeys r := by simpa using hctr
    have hsur' : "success" ∉ tyKeys r := by simpa using hsur
    have hrtE := expectedResponse_roundtrip (ser r) (deser r) (tyKeys r)
      (deser_frame r) (ihr hwr) hctr'
    have hrtA := additionalExpectedResponse_roundtrip (ser r) (deser r) (tyKeys r)
      (deser_frame r) (ihr hwr) hsur' hctr'
    have hrtF := miniForm_roundtrip (ser f) (deser f) (tyKeys f) (ser r) (deser r)
      (ser_keysIn f) (deser_frame f) (ihf hwf') (keysDisjoint_spec hdf) hrtE hrtA
    simp only [deser, ser]
    exact ia_roundtrip _ _ _ _ _ _ (ser_keysIn t) (deser_frame t)
      (iht hwt) (keysDisjoint_spec hdia) hrtF v

/-! ## The claims -/

/-- C1: For every serializable record `r` built from the hypermedia records
and H-lists (`Cons`/`Nil` with flattened heads and tails) whose constituent
key sets are pairwise disjoint, deserializing the JSON object produced by
serializing `r` yields a value equal to `r`. -/
theorem C1_roundtrip (t : Ty) (hwf : wfTy t = true) (v : Val t) :
    tyFromJson t (tyToJson t v) = .ok v := by
  simp only [tyToJson, tyFromJson, parseObjWith]
  exact deser_ser t hwf v

theorem C1_roundtrip_witness :
    tyFromJson (Ty.form (Ty.cons Ty.httpForm Ty.nil) Ty.response)
      (tyToJson (Ty.form (Ty.cons Ty.httpForm Ty.nil) Ty.response)
        ⟨.default, "/things", "application/json", none, none, none, none,
         some ⟨"application/ld+json", ⟨[⟨some "Link", none⟩], some 200⟩⟩, none,
         ⟨⟨some .get⟩, Nil.nil⟩⟩)
      = .ok ⟨.default, "/things", "application/json", none, none, none, none,
         some ⟨"application/ld+json", ⟨[⟨some "Link", none⟩], some 200⟩⟩, none,
         ⟨⟨some .get⟩, Nil.nil⟩⟩ :=
  C1_roundtrip (Ty.form (Ty.cons Ty.httpForm Ty.nil) Ty.response) (by rfl) _

/-- C2: `Nil` serializes to the empty JSON object and contributes zero keys
as a flattened field; deserializing any object into `Cons<X, Nil>` and
re-serializing produces the same object as serializing the `X` part alone. -/
theorem C2_nil_identity :
    (∀ v : Nil, Nil.toJson v = Json.obj [])
    ∧ (∀ v : Nil, Nil.serFields v = [])
    ∧ (∀ (x : Ty) (o : Fields) (v : Val (Ty.cons x Ty.nil)),
        deser (Ty.cons x Ty.nil) o = .ok v →
        ser (Ty.cons x Ty.nil) v = ser x v.head) := by
  refine ⟨fun _ => rfl, fun _ => rfl, ?_⟩
  intro x o v _
  simp [ser, Nil.serFields]

theorem C2_nil_identity_witness :
    ser (Ty.cons Ty.messageHeader Ty.nil) ⟨⟨none, none⟩, Nil.nil⟩
      = ser Ty.messageHeader ⟨none, none⟩ :=
  C2_nil_identity.2.2 Ty.messageHeader [] ⟨⟨none, none⟩, Nil.nil⟩ rfl

/-- C3: `ExpectedResponse::builder().other(f).build()` yields a record whose
extension slot is `f` applied to the inner builder's default, then built; in
particular the `Response`-extended builder chain of the source's test yields
`content_type == "text/bar"` and `status_code_value == Some(201)`. -/
theorem C3_builder_other :
    (∀ (β ρ : Type) (bld : β → ρ) (d : β) (f : β → β),
      ((Mini.ExpectedResponse.builder d).otherWith f).build bld
        = ⟨"", bld (f d)⟩)
    ∧ ((((Mini.ExpectedResponse.builder Response.builder).contentType "text/bar").otherWith
          (fun v => v.statusCodeValue 201)).build ResponseBuilder.build).content_type
        = "text/bar"
    ∧ ((((Mini.ExpectedResponse.builder Response.builder).contentType "text/bar").otherWith
          (fun v => v.statusCodeValue 201)).build
            ResponseBuilder.build).other.status_code_value
        = some 201 :=
  ⟨fun _ _ _ _ _ => rfl, rfl, rfl⟩

/-- C4: flattening is associative: serializing `Cons<A, Cons<B, C>>` and
`Cons<Cons<A, B>, C>` produce the same flat JSON object. -/
theorem C4_flatten_assoc (a b c : Ty)
    (_hab : keysDisjoint (tyKeys a) (tyKeys b) = true)
    (_hac : keysDisjoint (tyKeys a) (tyKeys c) = true)
    (_hbc : keysDisjoint (tyKeys b) (tyKeys c) = true)
    (va : Val a) (vb : Val b) (vc : Val c) :
    tyToJson (Ty.cons a (Ty.cons b c)) ⟨va, vb, vc⟩
      = tyToJson (Ty.cons (Ty.cons a b) c) ⟨⟨va, vb⟩, vc⟩ := by
  simp [tyToJson, ser, List.append_assoc]

theorem C4_flatten_assoc_witness :
    tyToJson (Ty.cons Ty.messageHeader (Ty.cons Ty.response Ty.httpForm))
        ⟨⟨none, none⟩, ⟨[], none⟩, ⟨none⟩⟩
      = tyToJson (Ty.cons (Ty.cons Ty.messageHeader Ty.response) Ty.httpForm)
        ⟨⟨⟨none, none⟩, ⟨[], none⟩⟩, ⟨none⟩⟩ :=
  C4_flatten_assoc Ty.messageHeader Ty.response Ty.httpForm (by rfl) (by rfl) (by rfl)
    _ _ _

/-- C5 (counterexample): serializing a `mini::Form` whose `security` vector
has exactly one element emits the bare string, not the array form the claim
requires. -/
theorem C5_counterexample :
    lookupField
      (Mini.Form.serFields Nil.serFields Nil.serFields
        ⟨.default, "/", "application/json", none, none, some ["nosec_sc"], none,
         none, none, Nil.nil⟩) "security"
      = some (Json.str "nosec_sc")
    ∧ Json.str "nosec_sc" ≠ Json.arr [Json.str "nosec_sc"] :=
  ⟨rfl, fun h => Json.noConfusion h⟩

/-- C5 (amended): deserializing a scalar and deserializing the singleton
array into a "one or many" field yield equal values; serialization emits the
bare scalar for a one-element vector and the array form for any other
vector (`serde_with::OneOrMany` with its default `PreferOne` format). -/
theorem C5_one_or_many :
    (∀ s : String, parseOneOrManyStr (Json.str s) = .ok [s]
      ∧ parseOneOrManyStr (Json.arr [Json.str s]) = .ok [s])
    ∧ (∀ s : String, oneOrManySer [s] = Json.str s)
    ∧ (oneOrManySer [] = Json.arr [])
    ∧ (∀ (x y : String) (t : List String),
        oneOrManySer (x :: y :: t) = Json.arr ((x :: y :: t).map Json.str))
    ∧ (Mini.Form.deserFields Nil.deserFields Nil.deserFields
        [("href", Json.str "/"), ("security", Json.str "nosec_sc")]
      = Mini.Form.deserFields Nil.deserFields Nil.deserFields
        [("href", Json.str "/"), ("security", Json.arr [Json.str "nosec_sc"])]) :=
  ⟨fun _ => ⟨rfl, rfl⟩, fun _ => rfl, rfl, fun _ _ _ => rfl, rfl⟩

/-- C6 (counterexample): serializing a `MessageHeader` with an absent
optional field emits the `htv:fieldName` key with an explicit `null`. -/
theorem C6_counterexample :
    lookupField (MessageHeader.serFields ⟨none, none⟩) "htv:fieldName"
      = some Json.null := rfl

/-- C6 (amended): records under `#[skip_serializing_none]` (`mini::Form` and
`mini::InteractionAffordance`) omit absent optional fields entirely and
deserializing an object missing an optional field succeeds; the plain
`MessageHeader` and `Response` serializers instead emit their
`htv:`-prefixed keys with explicit `null` values when the optional fields
are absent. -/
theorem C6_optional_fields :
    (∀ f : Mini.Form Nil Nil,
      f.op = .default → f.content_coding = none → f.subprotocol = none →
      f.security = none → f.scopes = none → f.response = none →
      f.additional_response = none →
      (Mini.Form.serFields Nil.serFields Nil.serFields f).map Prod.fst
        = ["href", "contentType"])
    ∧ (MessageHeader.serFields ⟨none, none⟩
        = [("htv:fieldName", Json.null), ("htv:fieldValue", Json.null)])
    ∧ (Response.serFields ⟨[], none⟩
        = [("htv:headers", Json.arr []), ("htv:statusCodeValue", Json.null)])
    ∧ (Mini.Form.deserFields Nil.deserFields Nil.deserFields [("href", Json.str "/")]
        = .ok ⟨.default, "/", "application/json", none, none, none, none, none, none,
            Nil.nil⟩)
    ∧ (MessageHeader.deserFields [] = .ok ⟨none, none⟩)
    ∧ (∀ a : Mini.InteractionAffordance Nil Nil Nil,
        a.attype = none → a.title = none → a.description = none →
        (Mini.InteractionAffordance.serFields Nil.serFields Nil.serFields Nil.serFields
          a).map Prod.fst
          = ["forms"])
    ∧ (Mini.InteractionAffordance.deserFields Nil.deserFields
        (Mini.Form.deserFields Nil.deserFields Nil.deserFields)
        [("forms", Json.arr [])]
        = .ok ⟨none, none, none, [], Nil.nil⟩) := by
  refine ⟨?_, rfl, rfl, rfl, rfl, ?_, rfl⟩
  · intro f h0 h1 h2 h3 h4 h5 h6
    obtain ⟨op, href, ct, cc, sp, sec, sco, resp, ar, oth⟩ := f
    cases oth
    simp only at h0 h1 h2 h3 h4 h5 h6
    subst h0 h1 h2 h3 h4 h5 h6
    rfl
  · intro a h0 h1 h2
    obtain ⟨aty, ti, de, fo, oth⟩ := a
    cases oth
    simp only at h0 h1 h2
    subst h0 h1 h2
    rfl

theorem C6_optional_fields_witness :
    ((Mini.Form.serFields Nil.serFields Nil.serFields
      ⟨.default, "/", "application/json", none, none, none, none, none, none,
        Nil.nil⟩).map Prod.fst
      = ["href", "contentType"])
    ∧ ((Mini.InteractionAffordance.serFields Nil.serFields Nil.serFields Nil.serFields
        ⟨none, none, none, [], Nil.nil⟩).map Prod.fst
      = ["forms"]) :=
  ⟨C6_optional_fields.1 _ rfl rfl rfl rfl rfl rfl rfl,
   C6_optional_fields.2.2.2.2.2.1 _ rfl rfl rfl⟩

/-- C7: deserializing a `mini::Form` object without a `contentType` key
yields `content_type == "application/json"`, and re-serializing any form
emits the `contentType` key explicitly. -/
theorem C7_default_content_type :
    (∀ (fs : Fields) (f : Mini.Form Nil Nil),
      lookupField fs "contentType" = none →
      Mini.Form.deserFields Nil.deserFields Nil.deserFields fs = .ok f →
      f.content_type = "application/json")
    ∧ (∀ f : Mini.Form Nil Nil,
        lookupField (Mini.Form.serFields Nil.serFields Nil.serFields f) "contentType"
          = some (Json.str f.content_type)) := by
  constructor
  · intro fs f hct hok
    simp only [Mini.Form.deserFields, hct] at hok
    obtain ⟨op, hop, hok⟩ := exceptBind_eq_ok.mp hok
    obtain ⟨href, hhref, hok⟩ := exceptBind_eq_ok.mp hok
    obtain ⟨ct, hc, hok⟩ := exceptBind_eq_ok.mp hok
    obtain ⟨cc, hcc, hok⟩ := exceptBind_eq_ok.mp hok
    obtain ⟨sp, hsp, hok⟩ := exceptBind_eq_ok.mp hok
    obtain ⟨sec, hsec, hok⟩ := exceptBind_eq_ok.mp hok
    obtain ⟨sco, hsco, hok⟩ := exceptBind_eq_ok.mp hok
    obtain ⟨resp, hresp, hok⟩ := exceptBind_eq_ok.mp hok
    obtain ⟨ar, har, hok⟩ := exceptBind_eq_ok.mp hok
    obtain ⟨oth, hoth, hok⟩ := exceptBind_eq_ok.mp hok
    simp only [getD, Mini.Form.default_content_type] at hc
    have hf := Except.ok.inj hok
    have hct' := Except.ok.inj hc
    subst hf
    simp [← hct']
  · intro f
    exact miniForm_lookup_ser_contentType _ _ f

theorem C7_default_content_type_witness :
    (Mini.Form.deserFields Nil.deserFields Nil.deserFields [("href", Json.str "/")]
      = .ok ⟨.default, "/", "application/json", none, none, none, none, none, none,
          Nil.nil⟩)
    ∧ (⟨.default, "/", "application/json", none, none, none, none, none, none,
          Nil.nil⟩ : Mini.Form Nil Nil).content_type = "application/json" :=
  ⟨rfl, C7_default_content_type.1 [("href", Json.str "/")] _ rfl rfl⟩

/-- C8: each `Method` variant serializes to its upper-snake-case string, and
deserializing any string outside the vocabulary (e.g. `"patch"`) fails with
an unknown-variant error. -/
theorem C8_method_vocabulary :
    (Method.toJson .get = Json.str "GET" ∧ Method.toJson .put = Json.str "PUT"
      ∧ Method.toJson .post = Json.str "POST"
      ∧ Method.toJson .delete = Json.str "DELETE"
      ∧ Method.toJson .patch = Json.str "PATCH")
    ∧ ∀ s : String, s ∉ (["GET", "PUT", "POST", "DELETE", "PATCH"] : List String) →
      Method.fromJson (Json.str s) = .error (.unknownVariant s) := by
  refine ⟨⟨rfl, rfl, rfl, rfl, rfl⟩, ?_⟩
  intro s hs
  simp only [List.mem_cons, List.not_mem_nil, or_false, not_or] at hs
  obtain ⟨h1, h2, h3, h4, h5⟩ := hs
  simp [Method.fromJson, h1, h2, h3, h4, h5]

theorem C8_method_vocabulary_witness :
    Method.fromJson (Json.str "patch") = .error (.unknownVariant "patch") :=
  C8_method_vocabulary.2 "patch" (by decide)

/-- C9: `split_head` undoes `add` (prepend) and `new_head`. -/
theorem C9_split_head :
    (∀ (T U V : Type) (l : Cons T U) (v : V), (l.add v).split_head = (v, l))
    ∧ (∀ (T : Type) (h : T), (Cons.new_head h).split_head = (h, Nil.nil)) :=
  ⟨fun _ _ _ _ _ => rfl, fun _ _ => rfl⟩

/-- C10: deserializing a `Response` without `"htv:headers"` fails with a
missing-field error; `"htv:statusCodeValue"` may be absent and yields
`None`; an empty headers array succeeds. -/
theorem C10_response_headers_required :
    (∀ fs : Fields, lookupField fs "htv:headers" = none →
      Response.deserFields fs = .error (.missingField "htv:headers"))
    ∧ (∀ (fs : Fields) (r : Response),
        lookupField fs "htv:statusCodeValue" = none →
        Response.deserFields fs = .ok r → r.status_code_value = none)
    ∧ (Response.fromJson (Json.obj [("htv:headers", Json.arr [])])
        = .ok ⟨[], none⟩) := by
  refine ⟨?_, ?_, rfl⟩
  · intro fs h
    simp [Response.deserFields, h, getReq, exceptBind_error]
  · intro fs r h hok
    simp only [Response.deserFields, h] at hok
    obtain ⟨hs, hhs, hok⟩ := exceptBind_eq_ok.mp hok
    obtain ⟨sc, hsc, hok⟩ := exceptBind_eq_ok.mp hok
    simp only [getOpt] at hsc
    have hscn := Except.ok.inj hsc
    have hf := Except.ok.inj hok
    subst hf
    simp [← hscn]

theorem C10_response_headers_required_witness :
    (Response.deserFields [] = .error (.missingField "htv:headers"))
    ∧ (⟨[], none⟩ : Response).status_code_value = none :=
  ⟨C10_response_headers_required.1 [] rfl,
   C10_response_headers_required.2.1 [("htv:headers", Json.arr [])] ⟨[], none⟩ rfl rfl⟩
